import Mathlib

/-!
Verification of the RootPainter3D tiled-inference and file-coordination
subsystems against their specification.

The Python sources are embedded shallowly:
* pure functions become Lean functions;
* machine integers become `Int`/`Nat` (numpy `int8` casts are wrapped
  explicitly);
* fallible code returns `Except PyErr`;
* filesystem writes are recorded as an explicit effect trace;
* the CNN is an opaque function parameter, as the spec treats it.

Functions of this repository that are not part of the provided sources
(`trainer/im_utils.py` helpers, the painter's `view_state.py`) are modelled
from the specification and are marked `Modelled from the spec:` in their
doc comments.
-/

/-- Exception classes observable from the embedded code.  The first four are
the Python exceptions the sources can actually raise (`assert`, `int()` on a
bad literal, a bad sequence index, iterating `None`).  `shapeError` and
`nameEncodingError` are the error classes named by the specification's error
taxonomy; no class of either name exists anywhere in the sources, and the
constructors are present only so claims about them can be stated. -/
inductive PyErr where
  | assertionError
  | valueError
  | indexError
  | typeError
  | shapeError
  | nameEncodingError
  deriving DecidableEq

/-- Cast of a single integer value to numpy `int8` (`np.byte`): wraps into
the interval `[-128, 128)`. -/
def int8_cast (v : Int) : Int := (v + 128) % 256 - 128

/-- `astype(np.byte)` applied to a flattened annotation array. -/
def astype_byte (a : List Int) : List Int := a.map int8_cast

/-- `np.sum` of a flattened array.  numpy accumulates `int8` sums in a wide
integer, so plain integer summation is exact. -/
def np_sum (a : List Int) : Int := a.sum

/-- Python truthiness of an optional string: `None` and `''` are falsy. -/
def pyTruthyStr : Option String → Bool
  | none => false
  | some s => s ≠ ""

/-- Characters of a path after its last `/` (`os.path.basename`). -/
def pyBasename (l : List Char) : List Char :=
  (l.reverse.takeWhile (· ≠ '/')).reverse

/-- Suffix of `l` starting at its last `.`, or `[]` when no dot occurs.
Helper for `os.path.splitext`. -/
def extFromLastDot : List Char → List Char
  | [] => []
  | c :: cs =>
    let r := extFromLastDot cs
    if r.isEmpty then (if c = '.' then c :: cs else []) else r

/-- `os.path.splitext(p)[1]`: the extension of the basename, where leading
dots of the basename do not start an extension. -/
def splitext_ext (p : String) : String :=
  let base := pyBasename p.toList
  let lead := base.takeWhile (· = '.')
  ⟨extFromLastDot (base.drop lead.length)⟩

/-- `os.path.dirname`: everything before the last `/`, empty when there is
no `/`.  (The POSIX root special case cannot arise at the call sites, which
always join a directory and a relative filename.) -/
def pyDirname (p : String) : String :=
  ⟨((p.toList.reverse.dropWhile (· ≠ '/')).drop 1).reverse⟩

/-- `os.path.join` of a directory and a relative filename. -/
def path_join (a b : String) : String := a ++ "/" ++ b

/-- Extension filter used by `get_new_annot_target_dir`
(`splitext(f)[1] in ['.png', '.npy', '.gz']`). -/
def annot_ext_ok (f : String) : Bool :=
  [".png", ".npy", ".gz"].contains (splitext_ext f)

/-- `get_new_annot_target_dir` from `painter/src/file_utils.py`.  The two
directory listings (the results of `get_recursive_files`, a filesystem read)
are passed in as arguments. -/
def get_new_annot_target_dir (train_annot_dir val_annot_dir : String)
    (train_listing val_listing : List String) : String :=
  let train_annots := train_listing.filter annot_ext_ok
  let val_annots := val_listing.filter annot_ext_ok
  let num_train_annots := train_annots.length
  let num_val_annots := val_annots.length
  if num_train_annots = 0 ∧ num_val_annots = 0 then train_annot_dir
  else if num_train_annots = 0 ∧ num_val_annots > 0 then train_annot_dir
  else if num_train_annots > 0 ∧ num_val_annots = 0 then val_annot_dir
  else if num_train_annots ≥ num_val_annots * 5 then val_annot_dir
  else train_annot_dir

/-- A filesystem modification performed by the painter's save path. -/
inductive FsEffect where
  | write (path : String) (data : List Int)
  | removeFile (path : String)
  | renameFile (src dst : String)
  | mkdirP (path : String)
  deriving DecidableEq

/-- Result of `maybe_save_annotation_3d`: the filesystem effect trace in
program order, the log lines emitted, and the returned annotation path. -/
structure SaveResult where
  effects : List FsEffect
  logs : List String
  annot_path : Option String
  deriving DecidableEq

/-- `maybe_save_annotation_3d` from `painter/src/file_utils.py`.
Filesystem reads are passed in: `load_annot p` is the stored annotation at
path `p` (flattened; `im_utils.load_annot` composed with the call site's
`astype(np.byte)` input), and the two listings feed
`get_new_annot_target_dir`.  Filesystem writes are returned as an effect
trace instead of being performed. -/
def maybe_save_annotation_3d (load_annot : String → List Int)
    (train_listing val_listing : List String)
    (annot_data0 : List Int) (annot_path : Option String) (fname : String)
    (train_annot_dir val_annot_dir : String) : SaveResult :=
  let annot_data := astype_byte annot_data0
  if pyTruthyStr annot_path then
    let p := annot_path.getD ""
    let existing_annot := astype_byte (load_annot p)
    if annot_data ≠ existing_annot then
      if np_sum annot_data = 0 then
        { effects := [.removeFile p],
          logs := ["maybe_save_annot," ++ fname ++
                   ",remove existing annotation as new data is empty"],
          annot_path := annot_path }
      else
        { effects := [.write p annot_data],
          logs := ["maybe_save_annot," ++ fname ++ ",updated existing data"],
          annot_path := annot_path }
    else
      { effects := [], logs := [], annot_path := annot_path }
  else
    if np_sum annot_data > 0 then
      let annot_dir := get_new_annot_target_dir train_annot_dir val_annot_dir
        train_listing val_listing
      let tmp_annot_path := path_join annot_dir (".tmp_" ++ fname)
      let new_annot_path := path_join annot_dir fname
      { effects := [.mkdirP (pyDirname tmp_annot_path),
                    .mkdirP (pyDirname new_annot_path),
                    .write tmp_annot_path annot_data,
                    .renameFile tmp_annot_path new_annot_path],
        logs := ["maybe_save_annot," ++ fname ++ ",create new"],
        annot_path := some new_annot_path }
    else
      { effects := [],
        logs := ["maybe_save_annot," ++ fname ++
                 ",not saving as annotation data empty"],
        annot_path := annot_path }

/-- A trace satisfies temp-write-then-rename when every `write` in it is to
a path that some `rename` in the trace moves elsewhere, so no reader of a
final path can observe a partially written file. -/
def writes_all_renamed (effects : List FsEffect) : Bool :=
  effects.all fun e =>
    match e with
    | .write p _ =>
      effects.any fun e2 =>
        match e2 with
        | .renameFile src _ => src = p
        | _ => false
    | _ => true

/-- Modelled from the spec: the painter's view states (`view_state.py` is
not among the provided sources; the spec names the states
`BOUNDING_BOX → LOADING_SEG → ANNOTATING`). -/
inductive ViewState where
  | boundingBox
  | loadingSeg
  | annotating
  deriving DecidableEq

/-- The fields of `RootPainter` that one tick of `track_changes` reads or
writes.  `σ` is the (opaque) type of loaded segmentation data. -/
structure TrackState (σ : Type) where
  seg_mtime : Option ℚ
  view_state : ViewState
  seg_data : Option σ
  info_label : String

/-- The external world one tick observes: the message-directory listing,
whether deleting each message succeeds, the segmentation path and whether a
file exists there, its modification time, and the outcome `im_utils.load_seg`
would have this tick (reading a file mid-write raises). -/
structure TickEnv (σ : Type) where
  messages : List String
  remove_ok : String → Bool
  seg_path : Option String
  seg_file_exists : Bool
  seg_mtime_on_disk : ℚ
  load_seg : Except PyErr σ

/-- Observable outcome of one tick: the updated fields, every string passed
to `info_label.setText` in order, every message whose deletion was
attempted, the deletions that failed (logged, not fatal), whether the
segmentation was reloaded this tick, and whether the tick re-armed the
timer. -/
structure TickResult (σ : Type) where
  state : TrackState σ
  displayed : List String
  delete_attempts : List String
  delete_failures : List String
  reloaded : Bool
  rearmed : Bool

/-- One tick (the inner `check`) of `RootPainter.track_changes` from
`painter/src/main/python/root_painter.py`.  For every listed message the
code calls `info_label.setText(m)` on the listing entry `m` and then
attempts `os.remove`, catching any failure.  It then reloads the
segmentation when `seg_path` is set (attribute present and truthy), a file
exists there, and either no segmentation was loaded yet (`seg_mtime is
None`) or the on-disk mtime is strictly newer; any exception while loading
is caught and leaves the segmentation fields unchanged.  The tick always
re-arms the 500 ms single-shot timer. -/
def track_changes_check {σ : Type} (env : TickEnv σ) (s : TrackState σ) :
    TickResult σ :=
  let info1 := env.messages.foldl (fun _ m => m) s.info_label
  let fails := env.messages.filter (fun m => !(env.remove_ok m))
  let seg_present := pyTruthyStr env.seg_path && env.seg_file_exists
  if seg_present then
    let is_new :=
      match s.seg_mtime with
      | none => true
      | some m => decide (m < env.seg_mtime_on_disk)
    if is_new then
      match env.load_seg with
      | .ok d =>
        { state := { seg_mtime := some env.seg_mtime_on_disk,
                     view_state := .annotating,
                     seg_data := some d,
                     info_label := info1 },
          displayed := env.messages,
          delete_attempts := env.messages,
          delete_failures := fails,
          reloaded := true,
          rearmed := true }
      | .error _ =>
        { state := { s with info_label := info1 },
          displayed := env.messages,
          delete_attempts := env.messages,
          delete_failures := fails,
          reloaded := false,
          rearmed := true }
    else
      { state := { s with info_label := info1 },
        displayed := env.messages,
        delete_attempts := env.messages,
        delete_failures := fails,
        reloaded := false,
        rearmed := true }
  else
    { state := { s with info_label := info1 },
      displayed := env.messages,
      delete_attempts := env.messages,
      delete_failures := fails,
      reloaded := false,
      rearmed := true }

/-- A 3-dimensional array shape `(depth, height, width)`, axis order
`(z, y, x)`. -/
structure Shape3 where
  d : Nat
  h : Nat
  w : Nat
  deriving DecidableEq

/-- A corner coordinate `(x, y, z)` of a patch, as produced by the tile
geometry planner and unpacked in `segment_3d`
(`x_coord, y_coord, z_coord = coord`). -/
structure Coord3 where
  x : Nat
  y : Nat
  z : Nat
  deriving DecidableEq

/-- A voxel grid of rational intensities, indexed `(z, y, x)`.  Positions
outside the accompanying shape are irrelevant junk. -/
def Vol3 : Type := Nat → Nat → Nat → ℚ

/-- The all-zero volume. -/
def zeroVol : Vol3 := fun _ _ _ => 0

/-- A 3D image: a shape and its voxel data. -/
structure Image3 where
  shape : Shape3
  data : Vol3

/-- A per-class output tile or prediction volume of integers (`predicted.int()`
yields 0/1 values), indexed `(z, y, x)`. -/
def OutV : Type := Nat → Nat → Nat → Int

/-- Modelled from the spec: the tile positions along one axis produced by
`get_coords_3d` (`trainer/im_utils.py`, not among the provided sources).
Per spec 4.1/8: consecutive tiles advance by exactly the output-patch
extent, and when the volume length is not an exact multiple the final tile
is right-aligned at `vol - patch` (clamped, slight overlap), e.g. length
100 with patch 30 gives positions 0, 30, 60, 70. -/
def axis_coords (vol patch : Nat) : List Nat :=
  (List.range (vol / patch)).map (· * patch) ++
    (if vol % patch = 0 then [] else [vol - patch])

/-- Modelled from the spec: `get_coords_3d(out_im_shape, out_tile_shape)`
(`trainer/im_utils.py`, not among the provided sources).  The ordered,
exhaustive sequence of output-space corner coordinates covering the output
volume, built from the per-axis positions. -/
def get_coords_3d (out_im_shape out_tile_shape : Shape3) : List Coord3 :=
  (axis_coords out_im_shape.d out_tile_shape.d).flatMap fun zc =>
    (axis_coords out_im_shape.h out_tile_shape.h).flatMap fun yc =>
      (axis_coords out_im_shape.w out_tile_shape.w).map fun xc =>
        ⟨xc, yc, zc⟩

/-- The input patch `image[z:z+in_d, y:y+in_h, x:x+in_w]` at corner `c`,
re-indexed to the patch's local frame. -/
def extract_patch (image : Image3) (in_tile_shape : Shape3) (c : Coord3) :
    Vol3 :=
  fun z y x => image.data (c.z + z) (c.y + y) (c.x + x)

/-- Whether the input patch at corner `c` lies fully inside the image.
numpy slicing clamps at the boundary, so `segment_3d`'s per-tile shape
assertions (`tile.shape[k] == in_tile_shape[k]`) pass exactly when this
holds. -/
def patch_fits (image : Image3) (in_tile_shape : Shape3) (c : Coord3) :
    Bool :=
  decide (c.z + in_tile_shape.d ≤ image.shape.d) &&
  decide (c.y + in_tile_shape.h ≤ image.shape.h) &&
  decide (c.x + in_tile_shape.w ≤ image.shape.w)

/-- The model-input tensor built for one coordinate: channel 0 is the
normalized image patch (`img_as_float32` then `im_utils.normalize_tile`,
both passed in as opaque pure functions — `normalize_tile` is in
`trainer/im_utils.py`, not among the provided sources, and spec 4.2 only
states it is a pure function of the patch), and channels 1 and 2 are the
zero-filled annotation placeholders added by
`F.pad(tiles_for_gpu, (0, 0, 0, 0, 0, 0, 0, 2), 'constant', 0)`. -/
def tile_for_gpu (f32 normalize_tile : Vol3 → Vol3) (image : Image3)
    (in_tile_shape : Shape3) (c : Coord3) : List Vol3 :=
  [normalize_tile (f32 (extract_patch image in_tile_shape c)),
   zeroVol, zeroVol]

/-- The opaque CNN: a batch of channel-stacked input tiles to, per input
tile, the list of output channel volumes (a background/foreground logit
pair per class: `outputs[b][ch]`). -/
def CnnFn : Type := List (List Vol3) → List (List Vol3)

/-- `softmax(class_output, 1)[:, 1] > 0.5` at one voxel, on rational
logits: the two-way softmax foreground probability exceeds one half exactly
when the foreground logit exceeds the background logit. -/
def softmax_fg_gt_half (bg fg : ℚ) : Bool := decide (bg < fg)

/-- One thresholded per-class output tile: `predicted.int()` applied to
`foreground_probs > 0.5` for the class's (background, foreground) logit
channel pair. -/
def predicted_int_tile (bg fg : Vol3) : OutV :=
  fun z y x => if softmax_fg_gt_half (bg z y x) (fg z y x) then 1 else 0

/-- `class_idxs = [x * 2 for x in range(outputs.shape[1] // 2)]`: the
background channel index of each class in the network output. -/
def class_idxs (num_out_channels : Nat) : List Nat :=
  (List.range (num_out_channels / 2)).map (· * 2)

/-- The per-class thresholded results of one batch, in batch order:
`outputs[:, class_idx:class_idx+2]`, softmaxed, thresholded.  The channel
count is read off the output tensor (`outputs.shape[1]`, here the channel
list length of the first output). -/
def process_batch (cnn : CnnFn) (inputs : List (List Vol3)) :
    List (List OutV) :=
  let outputs := cnn inputs
  (class_idxs (outputs.headD []).length).map fun ci =>
    outputs.map fun chans =>
      predicted_int_tile (chans.getD ci zeroVol) (chans.getD (ci + 1) zeroVol)

/-- One loop iteration's accumulator update: on the first batch
`class_output_tiles` is initialized to `[[] for _ in class_idxs]` and the
batch results are appended, which nets to the batch results themselves;
afterwards each class's tiles are appended to the existing list `i`
(`class_output_tiles[i].append(out_tile)`). -/
def append_class_tiles (acc : Option (List (List OutV)))
    (batch_res : List (List OutV)) : Option (List (List OutV)) :=
  match acc with
  | none => some batch_res
  | some ls => some (ls.mapIdx fun i l => l ++ batch_res.getD i [])

/-- Structural helper for `chunk_list`: the fuel bounds the number of
batches and is always sufficient when it starts at the list length, since
every batch consumes at least one element. -/
def chunk_fuel (bs : Nat) : Nat → List α → List (List α)
  | _, [] => []
  | 0, _ :: _ => []
  | fuel + 1, c :: cs =>
    (c :: cs.take (bs - 1)) :: chunk_fuel bs fuel (cs.drop (bs - 1))

/-- The batches the `while coord_idx < len(coords)` loop forms: up to
`batch_size` coordinates at a time, the last batch possibly short.  For a
positive batch size this is exactly the code's grouping; the Python loop
does not terminate for `batch_size = 0`, so every theorem below assumes a
positive batch size. -/
def chunk_list (bs : Nat) (l : List α) : List (List α) :=
  chunk_fuel bs l.length l

/-- The complete accumulator state after `segment_3d`'s batching loop:
`None` when there were no coordinates (the loop body never ran), otherwise
the per-class lists of thresholded output tiles in coordinate order. -/
def class_output_tiles (cnn : CnnFn) (f32 normalize_tile : Vol3 → Vol3)
    (image : Image3) (in_tile_shape : Shape3) (batch_size : Nat)
    (coords : List Coord3) : Option (List (List OutV)) :=
  (chunk_list batch_size coords).foldl
    (fun acc batch =>
      append_class_tiles acc
        (process_batch cnn
          (batch.map (tile_for_gpu f32 normalize_tile image in_tile_shape))))
    none

/-- A per-class prediction map: shape plus voxel data. -/
structure PredMap where
  shape : Shape3
  data : OutV

/-- Modelled from the spec: `reconstruct_from_tiles(tiles, coords,
out_im_shape)` (`trainer/im_utils.py`, not among the provided sources).
Per spec 4.4: allocate one output array of the target shape and write each
tile at its corner position; at clamped edge tiles later writes (in
coordinate-sequence order) win.  The output tile shape, implicit in the
numpy arrays, is passed explicitly. -/
def reconstruct_from_tiles (tiles : List OutV) (coords : List Coord3)
    (out_tile_shape out_im_shape : Shape3) : PredMap :=
  { shape := out_im_shape,
    data := fun z y x =>
      ((coords.zip tiles).filterMap fun ct =>
        if ct.1.z ≤ z ∧ z < ct.1.z + out_tile_shape.d ∧
           ct.1.y ≤ y ∧ y < ct.1.y + out_tile_shape.h ∧
           ct.1.x ≤ x ∧ x < ct.1.x + out_tile_shape.w
        then some (ct.2 (z - ct.1.z) (y - ct.1.y) (x - ct.1.x))
        else none).getLastD 0 }

/-- `segment_3d` from `trainer/model_utils.py`.  The three shape
assertions become `assertionError` results; the per-tile shape assertions
inside the loop are checked up front (`patch_fits` — observably the same,
as the embedding has no side effects); iterating a `None` accumulator when
there are no coordinates is Python's `TypeError`.  `depth_diff` and
`width_diff` use truncated subtraction: every call site and every theorem
below has output extents at most the input extents, matching the
nonnegative Python values.  Note the code derives `width_diff` from axis 1
and applies it to axes 1 and 2. -/
def segment_3d (cnn : CnnFn) (f32 normalize_tile : Vol3 → Vol3)
    (image : Image3) (batch_size : Nat)
    (in_tile_shape out_tile_shape : Shape3) : Except PyErr (List PredMap) :=
  if ¬ (in_tile_shape.d ≤ image.shape.d) then .error .assertionError
  else if ¬ (in_tile_shape.h ≤ image.shape.h) then .error .assertionError
  else if ¬ (in_tile_shape.w ≤ image.shape.w) then .error .assertionError
  else
    let depth_diff := in_tile_shape.d - out_tile_shape.d
    let width_diff := in_tile_shape.h - out_tile_shape.h
    let out_im_shape : Shape3 :=
      ⟨image.shape.d - depth_diff,
       image.shape.h - width_diff,
       image.shape.w - width_diff⟩
    let coords := get_coords_3d out_im_shape out_tile_shape
    if ¬ (coords.all (patch_fits image in_tile_shape)) then
      .error .assertionError
    else
      match class_output_tiles cnn f32 normalize_tile image in_tile_shape
          batch_size coords with
      | none => .error .typeError
      | some lists =>
        .ok (lists.map fun output_tiles =>
          reconstruct_from_tiles output_tiles coords out_tile_shape
            out_im_shape)

/-- Modelled from the spec: one axis of numpy `'reflect'` padding — the
original index for offset `j` (padded index minus pad), reflecting at the
borders without repeating the edge sample.  Used only where the pad is
less than the axis length, per the glossary's context-margin sizes. -/
def reflect_index (n : Nat) (j : Int) : Nat :=
  if j < 0 then (-j).toNat
  else if j < (n : Int) then j.toNat
  else (2 * (n : Int) - 2 - j).toNat

/-- Modelled from the spec: `pad_3d(image, width_pad, depth_pad,
mode='reflect', constant_values=0)` (`trainer/im_utils.py`, not among the
provided sources).  Per the call site and spec 4.5/2: pre-pad the volume by
`depth_pad` on both sides of the depth axis and by `width_pad` on both
sides of the height and width axes, reflecting border content. -/
def pad_3d (image : Image3) (width_pad depth_pad : Nat) : Image3 :=
  { shape := ⟨image.shape.d + 2 * depth_pad,
              image.shape.h + 2 * width_pad,
              image.shape.w + 2 * width_pad⟩,
    data := fun z y x =>
      image.data (reflect_index image.shape.d ((z : Int) - depth_pad))
                 (reflect_index image.shape.h ((y : Int) - width_pad))
                 (reflect_index image.shape.w ((x : Int) - width_pad)) }

/-- Structural helper for `py_replace_all`: the fuel bounds the number of
steps and is always sufficient when it starts at the list length and the
pattern is nonempty, since every step consumes at least one character. -/
def py_replace_fuel (pat : List Char) : Nat → List Char → List Char
  | _, [] => []
  | 0, l => l
  | fuel + 1, c :: cs =>
    if pat ≠ [] ∧ pat.isPrefixOf (c :: cs) then
      py_replace_fuel pat fuel ((c :: cs).drop pat.length)
    else
      c :: py_replace_fuel pat fuel cs

/-- Python's `str.replace(pat, '')` on character lists: remove every
(leftmost-first, non-overlapping) occurrence of `pat`. -/
def py_replace_all (pat l : List Char) : List Char :=
  py_replace_fuel pat l.length l

/-- Python's `str.split(sep)` for a one-character separator: the (possibly
empty) tokens between separators; `''.split(sep) == ['']`. -/
def split_char (sep : Char) : List Char → List (List Char)
  | [] => [[]]
  | c :: cs =>
    if c = sep then [] :: split_char sep cs
    else
      match split_char sep cs with
      | [] => [[c]]
      | t :: ts => (c :: t) :: ts

/-- The value of a list of decimal digit characters. -/
def digits_to_nat (l : List Char) : Nat :=
  l.foldl (fun acc c => acc * 10 + (c.toNat - '0'.toNat)) 0

/-- Python's `int(s)`: an optional sign followed by at least one digit;
anything else raises `ValueError`. -/
def py_int_chars (l : List Char) : Except PyErr Int :=
  match l with
  | '-' :: ds =>
    if ds ≠ [] ∧ ds.all Char.isDigit then .ok (-(digits_to_nat ds : Int))
    else .error .valueError
  | '+' :: ds =>
    if ds ≠ [] ∧ ds.all Char.isDigit then .ok (digits_to_nat ds : Int)
    else .error .valueError
  | ds =>
    if ds ≠ [] ∧ ds.all Char.isDigit then .ok (digits_to_nat ds : Int)
    else .error .valueError

/-- Python's negative indexing `l[-k]`: the `k`-th element from the end,
`IndexError` when the list is too short. -/
def py_get_neg (l : List α) (k : Nat) : Except PyErr α :=
  if h : 0 < k ∧ k ≤ l.length then .ok (l.get ⟨l.length - k, by omega⟩)
  else .error .indexError

/-- The six pad values encoded positionally at the end of a bounded
filename: `pad_x_<xs>_<xe>_y_<ys>_<ye>_z_<zs>_<ze>`. -/
structure BoundedPads where
  xs : Int
  xe : Int
  ys : Int
  ye : Int
  zs : Int
  ze : Int
  deriving DecidableEq

/-- The bounded-filename parse in `ensemble_segment_3d`:
`fname.replace('.nii.gz', '').split('_')`, then
`int(fname_parts[-8])` … `int(fname_parts[-1])` at the fixed offsets
-8, -7, -5, -4, -2, -1 from the end, in that evaluation order. -/
def parse_bounded_pads (fname : String) : Except PyErr BoundedPads := do
  let fname_parts := split_char '_' (py_replace_all ".nii.gz".toList fname.toList)
  let t8 ← py_get_neg fname_parts 8
  let x_crop_start ← py_int_chars t8
  let t7 ← py_get_neg fname_parts 7
  let x_crop_end ← py_int_chars t7
  let t5 ← py_get_neg fname_parts 5
  let y_crop_start ← py_int_chars t5
  let t4 ← py_get_neg fname_parts 4
  let y_crop_end ← py_int_chars t4
  let t2 ← py_get_neg fname_parts 2
  let z_crop_start ← py_int_chars t2
  let t1 ← py_get_neg fname_parts 1
  let z_crop_end ← py_int_chars t1
  pure ⟨x_crop_start, x_crop_end, y_crop_start, y_crop_end,
        z_crop_start, z_crop_end⟩

/-- Python slice-bound normalization for an axis of length `n`: negative
bounds count from the end, then both are clamped into `[0, n]`. -/
def py_slice_bound (n : Nat) (i : Int) : Nat :=
  if i < 0 then (max 0 ((n : Int) + i)).toNat
  else (min i (n : Int)).toNat

/-- The bounded-branch crop
`pred_map[zs : shape[0]-ze, ys : shape[1]-ye, xs : shape[2]-xe]` with
Python slice semantics on each axis. -/
def crop_pred_map (pm : PredMap) (zs ze ys ye xs xe : Int) : PredMap :=
  let z0 := py_slice_bound pm.shape.d zs
  let z1 := py_slice_bound pm.shape.d ((pm.shape.d : Int) - ze)
  let y0 := py_slice_bound pm.shape.h ys
  let y1 := py_slice_bound pm.shape.h ((pm.shape.h : Int) - ye)
  let x0 := py_slice_bound pm.shape.w xs
  let x1 := py_slice_bound pm.shape.w ((pm.shape.w : Int) - xe)
  { shape := ⟨z1 - z0, y1 - y0, x1 - x0⟩,
    data := fun z y x => pm.data (z0 + z) (y0 + y) (x0 + x) }

/-- `ensemble_segment_3d` from `trainer/model_utils.py`.  `load_model` is
passed in (checkpoint loading is I/O); indexing an empty `model_paths` is
Python's `IndexError`.  `depth_diff`, `height_diff` and `width_diff` use
truncated subtraction as in `segment_3d`.  The unbounded branch pre-pads
with `pad_3d(image, width_diff//2, depth_diff//2)` and asserts
`pred_maps[0].shape == input_image_shape`; the bounded branch parses the
six pad values from `fname`, subtracts the per-axis half margins and crops
every class map. -/
def ensemble_segment_3d (load_model : String → CnnFn)
    (f32 normalize_tile : Vol3 → Vol3) (model_paths : List String)
    (image : Image3) (fname : String)
    (batch_size in_w out_w in_d out_d : Nat) (bounded : Bool) :
    Except PyErr (List PredMap) :=
  match model_paths with
  | [] => .error .indexError
  | mp0 :: _ =>
    let cnn := load_model mp0
    let in_patch_shape : Shape3 := ⟨in_d, in_w, in_w⟩
    let out_patch_shape : Shape3 := ⟨out_d, out_w, out_w⟩
    let depth_diff := in_d - out_d
    let height_diff := in_w - out_w
    let width_diff := in_w - out_w
    let image2 :=
      if bounded then image else pad_3d image (width_diff / 2) (depth_diff / 2)
    match segment_3d cnn f32 normalize_tile image2 batch_size in_patch_shape
        out_patch_shape with
    | .error e => .error e
    | .ok pred_maps =>
      if bounded then
        match parse_bounded_pads fname with
        | .error e => .error e
        | .ok pads =>
          let z_crop_start := pads.zs - (depth_diff / 2 : Nat)
          let z_crop_end := pads.ze - (depth_diff / 2 : Nat)
          let y_crop_start := pads.ys - (height_diff / 2 : Nat)
          let y_crop_end := pads.ye - (height_diff / 2 : Nat)
          let x_crop_start := pads.xs - (width_diff / 2 : Nat)
          let x_crop_end := pads.xe - (width_diff / 2 : Nat)
          .ok (pred_maps.map fun pred_map =>
            crop_pred_map pred_map z_crop_start z_crop_end y_crop_start
              y_crop_end x_crop_start x_crop_end)
      else
        match pred_maps with
        | [] => .error .indexError
        | pm0 :: _ =>
          if pm0.shape = image.shape then .ok pred_maps
          else .error .assertionError

/-- The output-volume shape `segment_3d` computes:
`(image - depth_diff, image - width_diff, image - width_diff)`, where the
code derives `width_diff` from axis 1 and applies it to axes 1 and 2. -/
def seg_out_im_shape (image : Image3) (in_tile_shape out_tile_shape : Shape3) :
    Shape3 :=
  ⟨image.shape.d - (in_tile_shape.d - out_tile_shape.d),
   image.shape.h - (in_tile_shape.h - out_tile_shape.h),
   image.shape.w - (in_tile_shape.h - out_tile_shape.h)⟩

/-- The size preconditions under which `segment_3d` runs without assertion
failure: the image is at least as large as the input patch on every axis,
output extents are positive and at most the input extents, and the in-plane
margins agree (the code derives the axis-1 margin and applies it to axis 2;
every call site uses square in-plane patches, making this automatic
there). -/
def size_preconditions (image : Image3) (in_tile_shape out_tile_shape : Shape3) :
    Prop :=
  in_tile_shape.d ≤ image.shape.d ∧
  in_tile_shape.h ≤ image.shape.h ∧
  in_tile_shape.w ≤ image.shape.w ∧
  out_tile_shape.d ≤ in_tile_shape.d ∧
  out_tile_shape.h ≤ in_tile_shape.h ∧
  out_tile_shape.w ≤ in_tile_shape.w ∧
  0 < out_tile_shape.d ∧ 0 < out_tile_shape.h ∧ 0 < out_tile_shape.w ∧
  in_tile_shape.h - out_tile_shape.h = in_tile_shape.w - out_tile_shape.w

/-- The thresholded model output for class `i` on the input patch extracted
at coordinate `c`: the per-tile model `f` applied to the prepared
3-channel input, channels `2*i` and `2*i + 1` softmaxed and thresholded at
0.5. -/
def class_tile_at (f : List Vol3 → List Vol3) (f32 normalize_tile : Vol3 → Vol3)
    (image : Image3) (in_tile_shape : Shape3) (i : Nat) (c : Coord3) : OutV :=
  predicted_int_tile
    ((f (tile_for_gpu f32 normalize_tile image in_tile_shape c)).getD (i * 2)
      zeroVol)
    ((f (tile_for_gpu f32 normalize_tile image in_tile_shape c)).getD
      (i * 2 + 1) zeroVol)

/-- C10: when an existing annotation path is given and the new annotation
data, cast to byte, equals the stored annotation, `maybe_save_annotation_3d`
performs no filesystem modification (and emits no log line) and returns the
existing annotation path unchanged. -/
theorem maybe_save_no_change_no_fs_effects
    (load_annot : String → List Int) (tl vl : List String)
    (annot_data : List Int) (p fname td vd : String) (hp : p ≠ "")
    (heq : astype_byte annot_data = astype_byte (load_annot p)) :
    maybe_save_annotation_3d load_annot tl vl annot_data (some p) fname td vd =
      { effects := [], logs := [], annot_path := some p } := by
  simp [maybe_save_annotation_3d, pyTruthyStr, hp, heq]

theorem maybe_save_no_change_no_fs_effects_witness :
    maybe_save_annotation_3d (fun _ => [0, 5, 0]) [] [] [0, 5, 0]
        (some "train/annot/im1.nii.gz") "im1.nii.gz" "train/annot" "val/annot" =
      { effects := [], logs := [], annot_path := some "train/annot/im1.nii.gz" } :=
  maybe_save_no_change_no_fs_effects (fun _ => [0, 5, 0]) [] [] [0, 5, 0]
    "train/annot/im1.nii.gz" "im1.nii.gz" "train/annot" "val/annot"
    (by decide) rfl

/-- C4 counterexample: an edit of an existing annotation (path given, new
data different and non-empty) is written directly to the shared annotation
path, with no temporary name and no rename anywhere in the trace, so the
claim that every annotation is persisted via temp-write-then-rename is
false on this concrete input. -/
theorem maybe_save_edit_write_not_renamed_cex :
    (maybe_save_annotation_3d (fun _ => [0]) [] [] [1]
        (some "train/annot/im1.nii.gz") "im1.nii.gz" "train/annot"
        "val/annot").effects =
      [.write "train/annot/im1.nii.gz" [1]] ∧
    writes_all_renamed
      (maybe_save_annotation_3d (fun _ => [0]) [] [] [1]
        (some "train/annot/im1.nii.gz") "im1.nii.gz" "train/annot"
        "val/annot").effects = false := by
  constructor
  · decide
  · decide

/-- C4 (amended): only newly created annotations are persisted via
temp-write-then-rename; an edit of an existing annotation overwrites the
annotation path in place with a direct write, and an edit to empty data
deletes the file in place. -/
theorem maybe_save_annotation_3d_write_paths
    (load_annot : String → List Int) (tl vl : List String)
    (annot_data : List Int) (fname td vd : String) :
    (∀ ap : Option String, pyTruthyStr ap = false →
      0 < np_sum (astype_byte annot_data) →
      (maybe_save_annotation_3d load_annot tl vl annot_data ap fname td vd).effects =
        [.mkdirP (pyDirname (path_join (get_new_annot_target_dir td vd tl vl)
            (".tmp_" ++ fname))),
         .mkdirP (pyDirname (path_join (get_new_annot_target_dir td vd tl vl)
            fname)),
         .write (path_join (get_new_annot_target_dir td vd tl vl)
            (".tmp_" ++ fname)) (astype_byte annot_data),
         .renameFile (path_join (get_new_annot_target_dir td vd tl vl)
            (".tmp_" ++ fname))
           (path_join (get_new_annot_target_dir td vd tl vl) fname)] ∧
      writes_all_renamed
        (maybe_save_annotation_3d load_annot tl vl annot_data ap fname td
          vd).effects = true) ∧
    (∀ p : String, p ≠ "" →
      astype_byte annot_data ≠ astype_byte (load_annot p) →
      np_sum (astype_byte annot_data) ≠ 0 →
      (maybe_save_annotation_3d load_annot tl vl annot_data (some p) fname td
        vd).effects = [.write p (astype_byte annot_data)]) ∧
    (∀ p : String, p ≠ "" →
      astype_byte annot_data ≠ astype_byte (load_annot p) →
      np_sum (astype_byte annot_data) = 0 →
      (maybe_save_annotation_3d load_annot tl vl annot_data (some p) fname td
        vd).effects = [.removeFile p]) := by
  refine ⟨fun ap hap hsum => ?_, fun p hp hne hsum => ?_, fun p hp hne hsum => ?_⟩
  · have : ¬ (np_sum (astype_byte annot_data) = 0) := by omega
    constructor
    · simp [maybe_save_annotation_3d, hap, hsum]
    · simp [maybe_save_annotation_3d, hap, hsum, writes_all_renamed]
  · simp [maybe_save_annotation_3d, pyTruthyStr, hp, hne, hsum]
  · simp [maybe_save_annotation_3d, pyTruthyStr, hp, hne, hsum]

theorem maybe_save_annotation_3d_write_paths_witness :
    (maybe_save_annotation_3d (fun _ => [0]) [] [] [1] none "im1.nii.gz"
        "train/annot" "val/annot").effects =
      [.mkdirP "train/annot", .mkdirP "train/annot",
       .write "train/annot/.tmp_im1.nii.gz" [1],
       .renameFile "train/annot/.tmp_im1.nii.gz" "train/annot/im1.nii.gz"] ∧
    (maybe_save_annotation_3d (fun _ => [0]) [] [] [1]
        (some "val/annot/im1.nii.gz") "im1.nii.gz" "train/annot"
        "val/annot").effects = [.write "val/annot/im1.nii.gz" [1]] := by
  constructor
  · have h := ((maybe_save_annotation_3d_write_paths (fun _ => [0]) [] [] [1]
      "im1.nii.gz" "train/annot" "val/annot").1 none (by decide) (by decide)).1
    rw [h]
    decide
  · exact (maybe_save_annotation_3d_write_paths (fun _ => [0]) [] [] [1]
      "im1.nii.gz" "train/annot" "val/annot").2.1 "val/annot/im1.nii.gz"
      (by decide) (by decide) (by decide)

/-- C6 counterexample: the tick displays the message file's NAME
(`info_label.setText(m)` on the listing entry), never the file's contents;
on a directory holding one file named `done_1` whose contents are
`Training complete`, the displayed strings are the names, not the
contents. -/
theorem track_changes_displays_name_not_contents_cex :
    (track_changes_check
      ({ messages := ["done_1"], remove_ok := fun _ => true,
         seg_path := none, seg_file_exists := false,
         seg_mtime_on_disk := 0, load_seg := .error .valueError } :
        TickEnv Nat)
      { seg_mtime := none, view_state := .boundingBox, seg_data := none,
        info_label := "" }).displayed = ["done_1"] ∧
    (["done_1"].map fun _ => "Training complete") = ["Training complete"] ∧
    ["done_1"] ≠ ["Training complete"] := by
  refine ⟨rfl, rfl, by decide⟩

/-- C6 (amended): on every tick, for each file present in the message
directory the file's name is displayed to the user and its deletion is
attempted; a failed deletion is logged but aborts neither the remaining
messages nor the tick, which always re-arms. -/
theorem track_changes_message_handling {σ : Type} (env : TickEnv σ)
    (s : TrackState σ) :
    (track_changes_check env s).displayed = env.messages ∧
    (track_changes_check env s).delete_attempts = env.messages ∧
    (track_changes_check env s).delete_failures =
      env.messages.filter (fun m => !(env.remove_ok m)) ∧
    (track_changes_check env s).rearmed = true := by
  unfold track_changes_check
  dsimp only
  repeat' split
  all_goals exact ⟨rfl, rfl, rfl, rfl⟩

/-- C5: on every tick, the segmentation is reloaded and the view state set
to ANNOTATING exactly when the segmentation path is set, a file exists
there, the recorded mtime is `None` or strictly older than the on-disk
mtime, and the read succeeds; a read failure is caught, leaves the
segmentation state unchanged, and the tick still re-arms the timer. -/
theorem track_changes_reload_exactly_when {σ : Type} (env : TickEnv σ)
    (s : TrackState σ) :
    (track_changes_check env s).rearmed = true ∧
    ((track_changes_check env s).reloaded = true ↔
      (pyTruthyStr env.seg_path = true ∧ env.seg_file_exists = true ∧
       (s.seg_mtime = none ∨
         ∃ m, s.seg_mtime = some m ∧ m < env.seg_mtime_on_disk) ∧
       ∃ d, env.load_seg = .ok d)) ∧
    ((track_changes_check env s).reloaded = true →
      (track_changes_check env s).state.view_state = .annotating ∧
      (track_changes_check env s).state.seg_mtime =
        some env.seg_mtime_on_disk) ∧
    (∀ e, env.load_seg = .error e →
      (track_changes_check env s).state.seg_mtime = s.seg_mtime ∧
      (track_changes_check env s).state.view_state = s.view_state ∧
      (track_changes_check env s).state.seg_data = s.seg_data ∧
      (track_changes_check env s).rearmed = true) := by
  unfold track_changes_check
  dsimp only
  rcases hpath : pyTruthyStr env.seg_path with _ | _ <;>
    rcases hex : env.seg_file_exists with _ | _ <;>
    rcases hload : env.load_seg with e | d <;>
    rcases hmt : s.seg_mtime with _ | m <;>
    simp_all
  rcases lt_or_le m env.seg_mtime_on_disk with hlt | hge
  · simp [hlt]
  · simp [not_lt.mpr hge]

theorem track_changes_reload_exactly_when_witness :
    (track_changes_check
        ({ messages := [], remove_ok := fun _ => true,
           seg_path := some "proj/segmentations/im1.nii.gz",
           seg_file_exists := true, seg_mtime_on_disk := 5,
           load_seg := .ok 7 } : TickEnv Nat)
        { seg_mtime := none, view_state := .loadingSeg, seg_data := none,
          info_label := "" }).reloaded = true :=
  ((track_changes_reload_exactly_when
    { messages := [], remove_ok := fun _ => true,
      seg_path := some "proj/segmentations/im1.nii.gz",
      seg_file_exists := true, seg_mtime_on_disk := 5,
      load_seg := .ok 7 }
    { seg_mtime := none, view_state := .loadingSeg, seg_data := none,
      info_label := "" }).2.1).mpr
    ⟨by decide, rfl, Or.inl rfl, ⟨7, rfl⟩⟩

/-- C3: `ensemble_segment_3d` uses only `model_paths[0]`.  For every list
of model paths it returns exactly what it returns on the singleton list of
the first path: no model beyond the first is ever loaded and no averaging
across models occurs, contradicting its own docstring ("Average
predictions from each model specified in model_paths") and the spec's
ensemble contract. -/
theorem ensemble_segment_3d_ignores_tail_models
    (load_model : String → CnnFn) (f32 normalize_tile : Vol3 → Vol3)
    (mp0 : String) (mps : List String) (image : Image3) (fname : String)
    (batch_size in_w out_w in_d out_d : Nat) (bounded : Bool) :
    ensemble_segment_3d load_model f32 normalize_tile (mp0 :: mps) image
        fname batch_size in_w out_w in_d out_d bounded =
      ensemble_segment_3d load_model f32 normalize_tile [mp0] image fname
        batch_size in_w out_w in_d out_d bounded := by
  rfl

/-- C8 counterexample: on an image strictly smaller than the input patch
shape, segmentation fails — but with Python's `AssertionError` from the
`assert` statements, not with any `ShapeError` (no such class exists in the
sources). -/
theorem segment_3d_small_image_assertionerror_cex :
    segment_3d (fun b => b.map fun _ => [zeroVol, zeroVol]) id id
        ⟨⟨1, 1, 1⟩, fun _ _ _ => 0⟩ 1 ⟨2, 2, 2⟩ ⟨1, 1, 1⟩ =
      .error .assertionError ∧
    (Except.error .assertionError : Except PyErr (List PredMap)) ≠
      .error .shapeError := by
  refine ⟨rfl, ?_⟩
  intro h
  simp at h

/-- C8 (amended): for every image whose shape is smaller than the input
patch shape on any axis, `segment_3d` fails with an `AssertionError`
(raised by its shape `assert` statements) rather than silently producing
zero tiles. -/
theorem segment_3d_small_image_fails (cnn : CnnFn)
    (f32 normalize_tile : Vol3 → Vol3) (image : Image3) (batch_size : Nat)
    (in_tile_shape out_tile_shape : Shape3)
    (h : image.shape.d < in_tile_shape.d ∨ image.shape.h < in_tile_shape.h ∨
      image.shape.w < in_tile_shape.w) :
    segment_3d cnn f32 normalize_tile image batch_size in_tile_shape
        out_tile_shape = .error .assertionError := by
  unfold segment_3d
  rcases h with h | h | h
  · rw [if_pos (by omega)]
  · by_cases hd : in_tile_shape.d ≤ image.shape.d
    · rw [if_neg (by omega), if_pos (by omega)]
    · rw [if_pos (by omega)]
  · by_cases hd : in_tile_shape.d ≤ image.shape.d
    · by_cases hh : in_tile_shape.h ≤ image.shape.h
      · rw [if_neg (by omega), if_neg (by omega), if_pos (by omega)]
      · rw [if_neg (by omega), if_pos (by omega)]
    · rw [if_pos (by omega)]

theorem segment_3d_small_image_fails_witness :
    segment_3d (fun b => b.map fun _ => [zeroVol, zeroVol]) id id
        ⟨⟨10, 10, 3⟩, fun _ _ _ => 0⟩ 4 ⟨4, 4, 4⟩ ⟨2, 2, 2⟩ =
      .error .assertionError :=
  segment_3d_small_image_fails (fun b => b.map fun _ => [zeroVol, zeroVol])
    id id ⟨⟨10, 10, 3⟩, fun _ _ _ => 0⟩ 4 ⟨4, 4, 4⟩ ⟨2, 2, 2⟩
    (by right; right; decide)

theorem py_get_neg_error {α : Type} (l : List α) (k : Nat) (e : PyErr)
    (h : py_get_neg l k = .error e) : e = .indexError := by
  unfold py_get_neg at h
  split at h
  · exact absurd h (by simp)
  · exact (Except.error.injEq _ _ ▸ h).symm ▸ rfl

theorem py_int_chars_error (l : List Char) (e : PyErr)
    (h : py_int_chars l = .error e) : e = .valueError := by
  unfold py_int_chars at h
  split at h <;> split at h <;> simp_all

theorem except_bind_error {α β : Type} (x : Except PyErr α)
    (g : α → Except PyErr β) (e : PyErr) (h : (x >>= g) = .error e) :
    x = .error e ∨ ∃ a, x = .ok a ∧ g a = .error e := by
  cases x with
  | error e2 => simp_all [Bind.bind, Except.bind]
  | ok a => simp_all [Bind.bind, Except.bind]

theorem parse_bounded_pads_error_cases (fname : String) (e : PyErr)
    (h : parse_bounded_pads fname = .error e) :
    e = .indexError ∨ e = .valueError := by
  unfold parse_bounded_pads at h
  rcases except_bind_error _ _ _ h with h8 | ⟨t8, _, h⟩
  · exact Or.inl (py_get_neg_error _ _ _ h8)
  rcases except_bind_error _ _ _ h with hi | ⟨v1, _, h⟩
  · exact Or.inr (py_int_chars_error _ _ hi)
  rcases except_bind_error _ _ _ h with h7 | ⟨t7, _, h⟩
  · exact Or.inl (py_get_neg_error _ _ _ h7)
  rcases except_bind_error _ _ _ h with hi | ⟨v2, _, h⟩
  · exact Or.inr (py_int_chars_error _ _ hi)
  rcases except_bind_error _ _ _ h with h5 | ⟨t5, _, h⟩
  · exact Or.inl (py_get_neg_error _ _ _ h5)
  rcases except_bind_error _ _ _ h with hi | ⟨v3, _, h⟩
  · exact Or.inr (py_int_chars_error _ _ hi)
  rcases except_bind_error _ _ _ h with h4 | ⟨t4, _, h⟩
  · exact Or.inl (py_get_neg_error _ _ _ h4)
  rcases except_bind_error _ _ _ h with hi | ⟨v4, _, h⟩
  · exact Or.inr (py_int_chars_error _ _ hi)
  rcases except_bind_error _ _ _ h with h2 | ⟨t2, _, h⟩
  · exact Or.inl (py_get_neg_error _ _ _ h2)
  rcases except_bind_error _ _ _ h with hi | ⟨v5, _, h⟩
  · exact Or.inr (py_int_chars_error _ _ hi)
  rcases except_bind_error _ _ _ h with h1 | ⟨t1, _, h⟩
  · exact Or.inl (py_get_neg_error _ _ _ h1)
  rcases except_bind_error _ _ _ h with hi | ⟨v6, _, h⟩
  · exact Or.inr (py_int_chars_error _ _ hi)
  exact absurd h (by simp [pure, Except.pure])

/-- C7 counterexample: the bounded-crop resolution neither raises any
`NameEncodingError` (no class of that name exists in the sources) nor
refuses to guess.  On the malformed filename `a_1_2_3_4_5_6_7_8.nii.gz`
(wrong token count: a well-formed encoding carries the sixteen-token
`_x_.._y_.._z_.._pad_x_.._y_.._z_..` suffix) the six positionally selected
slots happen to hold integers, the parse succeeds with garbage pad values
`xs=1, xe=2, ys=4, ye=5, zs=7, ze=8`, and resolution completes normally,
cropping by those guessed values; and on `img.nii.gz`, where resolution
does fail, it fails with Python's `IndexError`, not a
`NameEncodingError`. -/
theorem ensemble_bounded_malformed_guesses_cex :
    parse_bounded_pads "a_1_2_3_4_5_6_7_8.nii.gz" =
      .ok ⟨1, 2, 4, 5, 7, 8⟩ ∧
    ensemble_segment_3d (fun _ => fun b => b.map fun _ => [zeroVol, zeroVol])
        id id ["000001_1.pkl"] ⟨⟨1, 1, 1⟩, fun _ _ _ => 0⟩
        "a_1_2_3_4_5_6_7_8.nii.gz" 1 1 1 1 1 true =
      .ok ([reconstruct_from_tiles
              [class_tile_at (fun _ => [zeroVol, zeroVol]) id id
                ⟨⟨1, 1, 1⟩, fun _ _ _ => 0⟩ ⟨1, 1, 1⟩ 0 ⟨0, 0, 0⟩]
              [⟨0, 0, 0⟩] ⟨1, 1, 1⟩ ⟨1, 1, 1⟩].map fun pred_map =>
        crop_pred_map pred_map 7 8 4 5 1 2) ∧
    parse_bounded_pads "img.nii.gz" = .error .indexError ∧
    (Except.error .indexError : Except PyErr BoundedPads) ≠
      .error .nameEncodingError := by
  refine ⟨rfl, rfl, rfl, ?_⟩
  intro h
  simp at h

/-- C7 (amended): the bounded-crop resolution in `ensemble_segment_3d`
performs no structural validation of the filename.  It fails exactly when
one of the six positionally selected fields is missing (fewer than eight
underscore tokens — Python's `IndexError` from `fname_parts[-k]`) or is
not an integer literal (`ValueError` from `int()`), never with any
`NameEncodingError`; and whenever the positional parse succeeds —
including on malformed names whose selected slots happen to hold
integers — resolution proceeds and crops every class map by the parsed
(possibly garbage) values minus the half margins. -/
theorem ensemble_bounded_no_validation (load_model : String → CnnFn)
    (f32 normalize_tile : Vol3 → Vol3) (mp0 : String) (mps : List String)
    (image : Image3) (fname : String)
    (batch_size in_w out_w in_d out_d : Nat) (maps : List PredMap)
    (hseg : segment_3d (load_model mp0) f32 normalize_tile image batch_size
      ⟨in_d, in_w, in_w⟩ ⟨out_d, out_w, out_w⟩ = .ok maps) :
    (∀ e : PyErr, parse_bounded_pads fname = .error e →
      (e = .indexError ∨ e = .valueError) ∧
      ensemble_segment_3d load_model f32 normalize_tile (mp0 :: mps) image
          fname batch_size in_w out_w in_d out_d true = .error e) ∧
    (∀ pads : BoundedPads, parse_bounded_pads fname = .ok pads →
      ensemble_segment_3d load_model f32 normalize_tile (mp0 :: mps) image
          fname batch_size in_w out_w in_d out_d true =
        .ok (maps.map fun pred_map =>
          crop_pred_map pred_map
            (pads.zs - ((in_d - out_d) / 2 : Nat))
            (pads.ze - ((in_d - out_d) / 2 : Nat))
            (pads.ys - ((in_w - out_w) / 2 : Nat))
            (pads.ye - ((in_w - out_w) / 2 : Nat))
            (pads.xs - ((in_w - out_w) / 2 : Nat))
            (pads.xe - ((in_w - out_w) / 2 : Nat)))) := by
  constructor
  · intro e hparse
    refine ⟨parse_bounded_pads_error_cases fname e hparse, ?_⟩
    unfold ensemble_segment_3d
    dsimp only
    rw [if_pos rfl, hseg, hparse]
    rfl
  · intro pads hparse
    unfold ensemble_segment_3d
    dsimp only
    rw [if_pos rfl, hseg, hparse]
    rfl

theorem ensemble_bounded_no_validation_witness :
    ensemble_segment_3d (fun _ => fun b => b.map fun _ => [zeroVol, zeroVol])
        id id ["000001_1.pkl"] ⟨⟨1, 1, 1⟩, fun _ _ _ => 0⟩
        "a_1_2_3_4_5_6_7_8.nii.gz" 1 1 1 1 1 true =
      .ok ([reconstruct_from_tiles
              [class_tile_at (fun _ => [zeroVol, zeroVol]) id id
                ⟨⟨1, 1, 1⟩, fun _ _ _ => 0⟩ ⟨1, 1, 1⟩ 0 ⟨0, 0, 0⟩]
              [⟨0, 0, 0⟩] ⟨1, 1, 1⟩ ⟨1, 1, 1⟩].map fun pred_map =>
        crop_pred_map pred_map 7 8 4 5 1 2) ∧
    ensemble_segment_3d (fun _ => fun b => b.map fun _ => [zeroVol, zeroVol])
        id id ["000001_1.pkl"] ⟨⟨1, 1, 1⟩, fun _ _ _ => 0⟩ "img.nii.gz"
        1 1 1 1 1 true = .error .indexError :=
  ⟨(ensemble_bounded_no_validation
      (fun _ => fun b => b.map fun _ => [zeroVol, zeroVol]) id id
      "000001_1.pkl" [] ⟨⟨1, 1, 1⟩, fun _ _ _ => 0⟩
      "a_1_2_3_4_5_6_7_8.nii.gz" 1 1 1 1 1 _ rfl).2 ⟨1, 2, 4, 5, 7, 8⟩ rfl,
   ((ensemble_bounded_no_validation
      (fun _ => fun b => b.map fun _ => [zeroVol, zeroVol]) id id
      "000001_1.pkl" [] ⟨⟨1, 1, 1⟩, fun _ _ _ => 0⟩ "img.nii.gz"
      1 1 1 1 1 _ rfl).1 .indexError rfl).2⟩

/-- C2: for every bounded volume whose filename parses to the six pad
values, `ensemble_segment_3d` crops each class prediction map by the
adjusted amounts `(pad_start - m, pad_end - m)` per axis, where `m` is half
the input/output patch-shape difference for that axis; when the margins are
zero the applied crop amounts equal the encoded pad values unchanged. -/
theorem ensemble_segment_3d_bounded_crop_resolution
    (load_model : String → CnnFn) (f32 normalize_tile : Vol3 → Vol3)
    (mp0 : String) (mps : List String) (image : Image3) (fname : String)
    (batch_size in_w out_w in_d out_d : Nat) (pads : BoundedPads)
    (hparse : parse_bounded_pads fname = .ok pads)
    (maps : List PredMap)
    (hseg : segment_3d (load_model mp0) f32 normalize_tile image batch_size
      ⟨in_d, in_w, in_w⟩ ⟨out_d, out_w, out_w⟩ = .ok maps) :
    ensemble_segment_3d load_model f32 normalize_tile (mp0 :: mps) image
        fname batch_size in_w out_w in_d out_d true =
      .ok (maps.map fun pred_map =>
        crop_pred_map pred_map
          (pads.zs - ((in_d - out_d) / 2 : Nat))
          (pads.ze - ((in_d - out_d) / 2 : Nat))
          (pads.ys - ((in_w - out_w) / 2 : Nat))
          (pads.ye - ((in_w - out_w) / 2 : Nat))
          (pads.xs - ((in_w - out_w) / 2 : Nat))
          (pads.xe - ((in_w - out_w) / 2 : Nat))) ∧
    (in_d = out_d → in_w = out_w →
      ensemble_segment_3d load_model f32 normalize_tile (mp0 :: mps) image
          fname batch_size in_w out_w in_d out_d true =
        .ok (maps.map fun pred_map =>
          crop_pred_map pred_map pads.zs pads.ze pads.ys pads.ye pads.xs
            pads.xe)) := by
  have hmain : ensemble_segment_3d load_model f32 normalize_tile (mp0 :: mps)
      image fname batch_size in_w out_w in_d out_d true =
      .ok (maps.map fun pred_map =>
        crop_pred_map pred_map
          (pads.zs - ((in_d - out_d) / 2 : Nat))
          (pads.ze - ((in_d - out_d) / 2 : Nat))
          (pads.ys - ((in_w - out_w) / 2 : Nat))
          (pads.ye - ((in_w - out_w) / 2 : Nat))
          (pads.xs - ((in_w - out_w) / 2 : Nat))
          (pads.xe - ((in_w - out_w) / 2 : Nat))) := by
    unfold ensemble_segment_3d
    dsimp only
    rw [if_pos rfl, hseg, hparse]
    rfl
  refine ⟨hmain, fun hd hw => ?_⟩
  rw [hmain]
  subst hd
  subst hw
  simp

theorem ensemble_segment_3d_bounded_crop_resolution_witness :
    ensemble_segment_3d (fun _ => fun b => b.map fun _ => [zeroVol, zeroVol])
        id id ["000001_1.pkl"] ⟨⟨1, 1, 1⟩, fun _ _ _ => 0⟩
        "img_x_10_y_20_z_5_pad_x_3_4_y_1_2_z_0_1.nii.gz" 1 1 1 1 1 true =
      .ok ([reconstruct_from_tiles
              [class_tile_at (fun _ => [zeroVol, zeroVol]) id id
                ⟨⟨1, 1, 1⟩, fun _ _ _ => 0⟩ ⟨1, 1, 1⟩ 0 ⟨0, 0, 0⟩]
              [⟨0, 0, 0⟩] ⟨1, 1, 1⟩ ⟨1, 1, 1⟩].map fun pred_map =>
        crop_pred_map pred_map 0 1 1 2 3 4) :=
  (ensemble_segment_3d_bounded_crop_resolution
    (fun _ => fun b => b.map fun _ => [zeroVol, zeroVol]) id id
    "000001_1.pkl" [] ⟨⟨1, 1, 1⟩, fun _ _ _ => 0⟩
    "img_x_10_y_20_z_5_pad_x_3_4_y_1_2_z_0_1.nii.gz" 1 1 1 1 1
    ⟨3, 4, 1, 2, 0, 1⟩ rfl _ rfl).1

theorem mapIdx_map_range {β γ : Type} (K : Nat) (G : Nat → β)
    (F : Nat → β → γ) :
    ((List.range K).map G).mapIdx (fun i l => F i l) =
      (List.range K).map fun i => F i (G i) := by
  apply List.ext_getElem
  · simp
  · intro i h1 h2
    simp [List.getElem_mapIdx]

theorem process_batch_eq (f : List Vol3 → List Vol3) (K : Nat)
    (hf : ∀ t, (f t).length = 2 * K) (cnn : CnnFn)
    (hcnn : ∀ b, cnn b = b.map f) (f32 normalize_tile : Vol3 → Vol3)
    (image : Image3) (inS : Shape3) (c : Coord3) (cs : List Coord3) :
    process_batch cnn
        ((c :: cs).map (tile_for_gpu f32 normalize_tile image inS)) =
      (List.range K).map fun i =>
        (c :: cs).map (class_tile_at f f32 normalize_tile image inS i) := by
  unfold process_batch class_idxs
  rw [hcnn, List.map_map]
  simp only [List.map_cons, List.headD_cons, Function.comp]
  rw [hf, show 2 * K / 2 = K by omega, List.map_map]
  apply List.map_congr_left
  intro i _
  dsimp only [Function.comp]
  rw [List.map_map]
  rfl

theorem append_class_tiles_perclass (K : Nat) (g : Nat → Coord3 → OutV)
    (cs0 b : List Coord3) :
    append_class_tiles (some ((List.range K).map fun i => cs0.map (g i)))
        ((List.range K).map fun i => b.map (g i)) =
      some ((List.range K).map fun i => (cs0 ++ b).map (g i)) := by
  unfold append_class_tiles
  dsimp only
  rw [mapIdx_map_range]
  congr 1
  apply List.map_congr_left
  intro i hi
  have hi' : i < K := List.mem_range.mp hi
  have hget : ((List.range K).map fun j => b.map (g j)).getD i [] =
      b.map (g i) := by
    simp [List.getD, List.getElem?_map, List.getElem?_range hi']
  rw [hget, List.map_append]

theorem fold_chunks_perclass (f : List Vol3 → List Vol3) (K : Nat)
    (hf : ∀ t, (f t).length = 2 * K) (cnn : CnnFn)
    (hcnn : ∀ b, cnn b = b.map f) (f32 normalize_tile : Vol3 → Vol3)
    (image : Image3) (inS : Shape3) (bs : Nat) (fuel : Nat) :
    ∀ (coords cs0 : List Coord3), coords.length ≤ fuel →
      (chunk_fuel bs fuel coords).foldl
        (fun acc batch => append_class_tiles acc
          (process_batch cnn
            (batch.map (tile_for_gpu f32 normalize_tile image inS))))
        (some ((List.range K).map fun i =>
          cs0.map (class_tile_at f f32 normalize_tile image inS i))) =
      some ((List.range K).map fun i =>
        (cs0 ++ coords).map (class_tile_at f f32 normalize_tile image inS i)) := by
  induction fuel with
  | zero =>
    intro coords cs0 hlen
    have hc : coords = [] := List.length_eq_zero.mp (by omega)
    subst hc
    simp [chunk_fuel]
  | succ n ih =>
    intro coords cs0 hlen
    match coords with
    | [] => simp [chunk_fuel]
    | c :: cs =>
      simp only [chunk_fuel, List.foldl_cons]
      rw [process_batch_eq f K hf cnn hcnn f32 normalize_tile image inS c
        (cs.take (bs - 1))]
      rw [append_class_tiles_perclass]
      rw [ih (cs.drop (bs - 1)) (cs0 ++ (c :: cs.take (bs - 1)))
        (by simp only [List.length_drop]; simp at hlen; omega)]
      have h3 : (c :: cs.take (bs - 1)) ++ cs.drop (bs - 1) = c :: cs := by
        simp [List.take_append_drop]
      rw [List.append_assoc, h3]

theorem class_output_tiles_eq (f : List Vol3 → List Vol3) (K : Nat)
    (hf : ∀ t, (f t).length = 2 * K) (cnn : CnnFn)
    (hcnn : ∀ b, cnn b = b.map f) (f32 normalize_tile : Vol3 → Vol3)
    (image : Image3) (inS : Shape3) (bs : Nat) (coords : List Coord3)
    (hne : coords ≠ []) :
    class_output_tiles cnn f32 normalize_tile image inS bs coords =
      some ((List.range K).map fun i =>
        coords.map (class_tile_at f f32 normalize_tile image inS i)) := by
  match coords with
  | c :: cs =>
    unfold class_output_tiles chunk_list
    simp only [List.length_cons, chunk_fuel, List.foldl_cons]
    rw [process_batch_eq f K hf cnn hcnn f32 normalize_tile image inS c
      (cs.take (bs - 1))]
    show (chunk_fuel bs cs.length (cs.drop (bs - 1))).foldl _
        (some ((List.range K).map fun i =>
          (c :: cs.take (bs - 1)).map
            (class_tile_at f f32 normalize_tile image inS i))) = _
    rw [fold_chunks_perclass f K hf cnn hcnn f32 normalize_tile image inS bs
      cs.length (cs.drop (bs - 1)) (c :: cs.take (bs - 1))
      (by simp only [List.length_drop]; omega)]
    have h3 : (c :: cs.take (bs - 1)) ++ cs.drop (bs - 1) = c :: cs := by
      simp [List.take_append_drop]
    rw [h3]

theorem axis_coords_ne_nil (n p : Nat) (hp : 0 < p) (hnp : p ≤ n) :
    axis_coords n p ≠ [] := by
  unfold axis_coords
  have h1 : 0 < n / p := Nat.div_pos hnp hp
  intro hcon
  rcases List.append_eq_nil.mp hcon with ⟨hmap, _⟩
  have h2 := List.map_eq_nil_iff.mp hmap
  rw [List.range_eq_nil] at h2
  omega

theorem axis_coords_add_le (n p : Nat) (hp : 0 < p) (hnp : p ≤ n) :
    ∀ v ∈ axis_coords n p, v + p ≤ n := by
  intro v hv
  unfold axis_coords at hv
  rcases List.mem_append.mp hv with h | h
  · rcases List.mem_map.mp h with ⟨k, hk, rfl⟩
    have hk' : k < n / p := List.mem_range.mp hk
    have h1 : (k + 1) * p ≤ (n / p) * p := Nat.mul_le_mul_right p (by omega)
    have h2 : (n / p) * p ≤ n := Nat.div_mul_le_self n p
    have h3 : (k + 1) * p = k * p + p := by ring
    omega
  · split at h
    · simp at h
    · simp at h
      omega

theorem get_coords_3d_ne_nil (outIm outS : Shape3)
    (hd : 0 < outS.d) (hh : 0 < outS.h) (hw : 0 < outS.w)
    (hdl : outS.d ≤ outIm.d) (hhl : outS.h ≤ outIm.h)
    (hwl : outS.w ≤ outIm.w) :
    get_coords_3d outIm outS ≠ [] := by
  obtain ⟨zc, hz⟩ := List.exists_mem_of_ne_nil _
    (axis_coords_ne_nil outIm.d outS.d hd hdl)
  obtain ⟨yc, hy⟩ := List.exists_mem_of_ne_nil _
    (axis_coords_ne_nil outIm.h outS.h hh hhl)
  obtain ⟨xc, hx⟩ := List.exists_mem_of_ne_nil _
    (axis_coords_ne_nil outIm.w outS.w hw hwl)
  have hmem : (⟨xc, yc, zc⟩ : Coord3) ∈ get_coords_3d outIm outS := by
    unfold get_coords_3d
    exact List.mem_flatMap.mpr ⟨zc, hz, List.mem_flatMap.mpr
      ⟨yc, hy, List.mem_map.mpr ⟨xc, hx, rfl⟩⟩⟩
  exact List.ne_nil_of_mem hmem

theorem get_coords_3d_all_fit (image : Image3) (inS outS : Shape3)
    (hpre : size_preconditions image inS outS) :
    ∀ c ∈ get_coords_3d (seg_out_im_shape image inS outS) outS,
      patch_fits image inS c = true := by
  obtain ⟨h1, h2, h3, h4, h5, h6, h7, h8, h9, h10⟩ := hpre
  intro c hc
  unfold get_coords_3d at hc
  rcases List.mem_flatMap.mp hc with ⟨zc, hz, hc⟩
  rcases List.mem_flatMap.mp hc with ⟨yc, hy, hc⟩
  rcases List.mem_map.mp hc with ⟨xc, hx, rfl⟩
  have hzb := axis_coords_add_le _ _ h7
    (by unfold seg_out_im_shape; dsimp only; omega) _ hz
  have hyb := axis_coords_add_le _ _ h8
    (by unfold seg_out_im_shape; dsimp only; omega) _ hy
  have hxb := axis_coords_add_le _ _ h9
    (by unfold seg_out_im_shape; dsimp only; omega) _ hx
  unfold seg_out_im_shape at hzb hyb hxb
  dsimp only at hzb hyb hxb
  unfold patch_fits
  dsimp only
  simp only [Bool.and_eq_true, decide_eq_true_eq]
  refine ⟨⟨?_, ?_⟩, ?_⟩
  · omega
  · omega
  · omega

theorem segment_3d_eq_ok (f : List Vol3 → List Vol3) (K : Nat)
    (hf : ∀ t, (f t).length = 2 * K) (cnn : CnnFn)
    (hcnn : ∀ b, cnn b = b.map f) (f32 normalize_tile : Vol3 → Vol3)
    (image : Image3) (inS outS : Shape3) (bs : Nat)
    (hpre : size_preconditions image inS outS) :
    segment_3d cnn f32 normalize_tile image bs inS outS =
      .ok (((List.range K).map fun i =>
          (get_coords_3d (seg_out_im_shape image inS outS) outS).map
            (class_tile_at f f32 normalize_tile image inS i)).map
        fun output_tiles =>
          reconstruct_from_tiles output_tiles
            (get_coords_3d (seg_out_im_shape image inS outS) outS) outS
            (seg_out_im_shape image inS outS)) := by
  have hpre' := hpre
  obtain ⟨h1, h2, h3, h4, h5, h6, h7, h8, h9, h10⟩ := hpre'
  unfold segment_3d
  rw [if_neg (by omega), if_neg (by omega), if_neg (by omega)]
  dsimp only
  have hsh : (⟨image.shape.d - (inS.d - outS.d),
      image.shape.h - (inS.h - outS.h),
      image.shape.w - (inS.h - outS.h)⟩ : Shape3) =
      seg_out_im_shape image inS outS := rfl
  rw [hsh]
  have hall : (get_coords_3d (seg_out_im_shape image inS outS) outS).all
      (patch_fits image inS) = true :=
    List.all_eq_true.mpr (get_coords_3d_all_fit image inS outS hpre)
  rw [if_neg (by simp [hall])]
  have hne : get_coords_3d (seg_out_im_shape image inS outS) outS ≠ [] := by
    apply get_coords_3d_ne_nil _ _ h7 h8 h9
    · unfold seg_out_im_shape; dsimp only; omega
    · unfold seg_out_im_shape; dsimp only; omega
    · unfold seg_out_im_shape; dsimp only; omega
  rw [class_output_tiles_eq f K hf cnn hcnn f32 normalize_tile image inS bs
    _ hne]

/-- C1: in `segment_3d`, for every image and tile shapes satisfying the
size preconditions, every per-tile model and every positive batch size, the
per-class accumulator lists stay positionally aligned with the planner's
coordinate sequence: the accumulator holds one list per class, each list
has exactly one entry per planner coordinate, and the Nth entry is the
thresholded (softmax foreground probability > 0.5) model output for the
input patch extracted at the Nth coordinate — regardless of how the
coordinates are grouped into batches (the last batch may be short). -/
theorem segment_3d_accumulator_alignment (f : List Vol3 → List Vol3)
    (K : Nat) (hK : 0 < K) (hf : ∀ t, (f t).length = 2 * K) (cnn : CnnFn)
    (hcnn : ∀ b, cnn b = b.map f) (f32 normalize_tile : Vol3 → Vol3)
    (image : Image3) (in_tile_shape out_tile_shape : Shape3)
    (batch_size : Nat) (hbs : 0 < batch_size)
    (hpre : size_preconditions image in_tile_shape out_tile_shape) :
    ∃ lists : List (List OutV),
      class_output_tiles cnn f32 normalize_tile image in_tile_shape
          batch_size
          (get_coords_3d (seg_out_im_shape image in_tile_shape out_tile_shape)
            out_tile_shape) = some lists ∧
      lists.length = K ∧
      (∀ i, i < K →
        (lists.getD i []).length =
          (get_coords_3d (seg_out_im_shape image in_tile_shape out_tile_shape)
            out_tile_shape).length) ∧
      (∀ i, i < K → ∀ n,
        n < (get_coords_3d (seg_out_im_shape image in_tile_shape
          out_tile_shape) out_tile_shape).length →
        (lists.getD i []).getD n (fun _ _ _ => 0) =
          class_tile_at f f32 normalize_tile image in_tile_shape i
            ((get_coords_3d (seg_out_im_shape image in_tile_shape
              out_tile_shape) out_tile_shape).getD n ⟨0, 0, 0⟩)) := by
  obtain ⟨h1, h2, h3, h4, h5, h6, h7, h8, h9, h10⟩ := hpre
  have hne : get_coords_3d (seg_out_im_shape image in_tile_shape
      out_tile_shape) out_tile_shape ≠ [] := by
    apply get_coords_3d_ne_nil _ _ h7 h8 h9
    · unfold seg_out_im_shape; dsimp only; omega
    · unfold seg_out_im_shape; dsimp only; omega
    · unfold seg_out_im_shape; dsimp only; omega
  refine ⟨_, class_output_tiles_eq f K hf cnn hcnn f32 normalize_tile image
    in_tile_shape batch_size _ hne, by simp, fun i hi => ?_, fun i hi n hn => ?_⟩
  · have hget : ((List.range K).map fun j =>
        (get_coords_3d (seg_out_im_shape image in_tile_shape out_tile_shape)
          out_tile_shape).map
          (class_tile_at f f32 normalize_tile image in_tile_shape j)).getD
        i [] =
        (get_coords_3d (seg_out_im_shape image in_tile_shape out_tile_shape)
          out_tile_shape).map
          (class_tile_at f f32 normalize_tile image in_tile_shape i) := by
      simp [List.getD, List.getElem?_map, List.getElem?_range hi]
    rw [hget, List.length_map]
  · have hget : ((List.range K).map fun j =>
        (get_coords_3d (seg_out_im_shape image in_tile_shape out_tile_shape)
          out_tile_shape).map
          (class_tile_at f f32 normalize_tile image in_tile_shape j)).getD
        i [] =
        (get_coords_3d (seg_out_im_shape image in_tile_shape out_tile_shape)
          out_tile_shape).map
          (class_tile_at f f32 normalize_tile image in_tile_shape i) := by
      simp [List.getD, List.getElem?_map, List.getElem?_range hi]
    rw [hget]
    simp [List.getD, List.getElem?_map, List.getElem?_eq_getElem hn]

theorem segment_3d_accumulator_alignment_witness :
    ∃ lists : List (List OutV),
      class_output_tiles (fun b => b.map fun _ => [zeroVol, zeroVol]) id id
          ⟨⟨1, 1, 1⟩, fun _ _ _ => 0⟩ ⟨1, 1, 1⟩ 1
          (get_coords_3d
            (seg_out_im_shape ⟨⟨1, 1, 1⟩, fun _ _ _ => 0⟩ ⟨1, 1, 1⟩ ⟨1, 1, 1⟩)
            ⟨1, 1, 1⟩) = some lists ∧
      lists.length = 1 ∧
      (∀ i, i < 1 →
        (lists.getD i []).length =
          (get_coords_3d
            (seg_out_im_shape ⟨⟨1, 1, 1⟩, fun _ _ _ => 0⟩ ⟨1, 1, 1⟩ ⟨1, 1, 1⟩)
            ⟨1, 1, 1⟩).length) ∧
      (∀ i, i < 1 → ∀ n,
        n < (get_coords_3d
          (seg_out_im_shape ⟨⟨1, 1, 1⟩, fun _ _ _ => 0⟩ ⟨1, 1, 1⟩ ⟨1, 1, 1⟩)
          ⟨1, 1, 1⟩).length →
        (lists.getD i []).getD n (fun _ _ _ => 0) =
          class_tile_at (fun _ => [zeroVol, zeroVol]) id id
            ⟨⟨1, 1, 1⟩, fun _ _ _ => 0⟩ ⟨1, 1, 1⟩ i
            ((get_coords_3d
              (seg_out_im_shape ⟨⟨1, 1, 1⟩, fun _ _ _ => 0⟩ ⟨1, 1, 1⟩
                ⟨1, 1, 1⟩) ⟨1, 1, 1⟩).getD n ⟨0, 0, 0⟩)) :=
  segment_3d_accumulator_alignment (fun _ => [zeroVol, zeroVol]) 1
    (by decide) (fun _ => rfl) (fun b => b.map fun _ => [zeroVol, zeroVol])
    (fun _ => rfl) id id ⟨⟨1, 1, 1⟩, fun _ _ _ => 0⟩ ⟨1, 1, 1⟩ ⟨1, 1, 1⟩ 1
    (by decide) (by unfold size_preconditions; decide)

/-- C9: for every unbounded volume, when the per-axis margins
(input minus output patch extent) are even — the in-plane margins being
equal automatically, since the engine uses `(in_w, in_w)` patches —
`ensemble_segment_3d` pre-pads the volume by half the margin on each side
and every per-class prediction map it returns has exactly the shape of the
original input image: no border is cropped away. -/
theorem ensemble_segment_3d_unbounded_shape_preserved
    (load_model : String → CnnFn) (f : List Vol3 → List Vol3) (K : Nat)
    (hK : 0 < K) (hf : ∀ t, (f t).length = 2 * K) (mp0 : String)
    (mps : List String) (hcnn : ∀ b, load_model mp0 b = b.map f)
    (f32 normalize_tile : Vol3 → Vol3) (image : Image3) (fname : String)
    (batch_size in_w out_w in_d out_d : Nat) (hbs : 0 < batch_size)
    (heven_d : (in_d - out_d) % 2 = 0) (heven_w : (in_w - out_w) % 2 = 0)
    (hdo : out_d ≤ in_d) (hwo : out_w ≤ in_w)
    (hid : out_d ≤ image.shape.d) (hih : out_w ≤ image.shape.h)
    (hiw : out_w ≤ image.shape.w) (hpd : 0 < out_d) (hpw : 0 < out_w) :
    ∃ maps, ensemble_segment_3d load_model f32 normalize_tile (mp0 :: mps)
        image fname batch_size in_w out_w in_d out_d false = .ok maps ∧
      maps.length = K ∧ ∀ pm ∈ maps, pm.shape = image.shape := by
  have hpre : size_preconditions
      (pad_3d image ((in_w - out_w) / 2) ((in_d - out_d) / 2))
      ⟨in_d, in_w, in_w⟩ ⟨out_d, out_w, out_w⟩ := by
    unfold size_preconditions pad_3d
    dsimp only
    omega
  have hsh : seg_out_im_shape
      (pad_3d image ((in_w - out_w) / 2) ((in_d - out_d) / 2))
      ⟨in_d, in_w, in_w⟩ ⟨out_d, out_w, out_w⟩ = image.shape := by
    unfold seg_out_im_shape pad_3d
    dsimp only
    obtain ⟨D, H, W⟩ := image.shape
    dsimp only
    congr 1 <;> omega
  unfold ensemble_segment_3d
  dsimp only
  rw [if_neg (by simp)]
  rw [segment_3d_eq_ok f K hf (load_model mp0) hcnn f32 normalize_tile
    (pad_3d image ((in_w - out_w) / 2) ((in_d - out_d) / 2))
    ⟨in_d, in_w, in_w⟩ ⟨out_d, out_w, out_w⟩ batch_size hpre]
  rcases K with _ | K0
  · omega
  rw [List.range_succ_eq_map]
  dsimp only [List.map_cons]
  rw [if_neg (by simp)]
  rw [hsh]
  dsimp only [reconstruct_from_tiles]
  rw [if_pos rfl]
  refine ⟨_, rfl, by simp, fun pm hpm => ?_⟩
  rcases List.mem_cons.mp hpm with rfl | h
  · rfl
  · rcases List.mem_map.mp h with ⟨tiles, _, rfl⟩
    rfl

theorem ensemble_segment_3d_unbounded_shape_preserved_witness :
    ∃ maps, ensemble_segment_3d
        (fun _ => fun b => b.map fun _ => [zeroVol, zeroVol]) id id
        ["000001_1.pkl"] ⟨⟨2, 2, 2⟩, fun _ _ _ => 0⟩ "im1.nii.gz"
        1 3 1 3 1 false = .ok maps ∧
      maps.length = 1 ∧
      ∀ pm ∈ maps,
        pm.shape = (⟨⟨2, 2, 2⟩, fun _ _ _ => 0⟩ : Image3).shape :=
  ensemble_segment_3d_unbounded_shape_preserved
    (fun _ => fun b => b.map fun _ => [zeroVol, zeroVol])
    (fun _ => [zeroVol, zeroVol]) 1 (by decide) (fun _ => rfl)
    "000001_1.pkl" [] (fun _ => rfl) id id ⟨⟨2, 2, 2⟩, fun _ _ _ => 0⟩
    "im1.nii.gz" 1 3 1 3 1 (by decide) (by decide) (by decide) (by decide)
    (by decide) (by decide) (by decide) (by decide) (by decide) (by decide)
